import Mathlib

set_option maxRecDepth 100000

/-!
# Verification of the astro-zap numerical core

Shallow embedding of the two numerical modules of the repository:

* `Equation` — the quadratic-equation model built from user deposits and pool
  reserves (TypeScript class `Equation` backed by bn.js big integers), with its
  Newton–Raphson solver `Equation.solve`.
* `computeXykSwapOutput` — the constant-product swap simulator.

bn.js values are arbitrary-precision signed integers, embedded as `Int`.
`BN.div` truncates toward zero, embedded as `Int.tdiv`.  `BN.toNumber`,
used by the solver's termination test, returns the exact integer when its
magnitude is below `2 ^ 53` and throws an assertion failure otherwise; the
solver is therefore embedded as a fallible function returning `SolveResult`.
`BN.div` with a zero divisor likewise throws, giving the second error case.
-/

namespace AstroZap

/-- Coefficients of the quadratic equation `a * x^2 + b * x - c = 0`
(the code stores `c` already negated: `computeValue` adds it). -/
structure Equation where
  a : Int
  b : Int
  c : Int
deriving DecidableEq, Repr

/-- `MAX_ITERATIONS = 32` from the `Equation` class. -/
def MAX_ITERATIONS : Nat := 32

/-- The `Equation` constructor: builds the coefficients from the four asset
amounts, with the 30/10000 fee rate baked into `b`. -/
def Equation.build (offer_user offer_pool ask_user ask_pool : Int) : Equation :=
  let a := ask_pool + ask_user
  let b1 := offer_pool * a * 2
  let b2 := (ask_pool * (offer_pool + offer_user) * 30).tdiv 10000
  let c := offer_pool * (offer_pool * ask_user - offer_user * ask_pool)
  ⟨a, b1 - b2, c⟩

/-- `computeValue`: the value of `f(x) = a * x^2 + b * x + c`. -/
def Equation.computeValue (e : Equation) (x : Int) : Int :=
  e.a * x * x + e.b * x + e.c

/-- `computeDerivValue`: the value of `f'(x) = 2 * a * x + b`. -/
def Equation.computeDerivValue (e : Equation) (x : Int) : Int :=
  2 * e.a * x + e.b

/-- Magnitude bound of `BN.toNumber`: it throws when the argument's absolute
value is `2 ^ 53` or more, and returns the exact integer below that. -/
def BN_TONUMBER_BOUND : Nat := 2 ^ 53

/-- Result of `Equation.solve`: the returned integer, or one of the two
runtime exceptions the bn.js operations in the loop can throw. -/
inductive SolveResult where
  | ok (x : Int)
  | divByZero
  | overflow
deriving DecidableEq, Repr

/-- Whether a `SolveResult` is a normal return. -/
def SolveResult.isOk : SolveResult → Bool
  | .ok _ => true
  | _ => false

/-- One iteration's update `x = xPrev.sub(val.div(derivVal))` of the solve
loop: the Newton step `x - f(x) / f'(x)` with truncating division. -/
def Equation.newtonStep (e : Equation) (x : Int) : Int :=
  x - (e.computeValue x).tdiv (e.computeDerivValue x)

/-- The body of the `for` loop in `Equation.solve`, with the remaining
iteration count as fuel.  At the top of each source-loop iteration the
variables `x` and `xPrev` are equal, so a single parameter carries both,
and the newly computed iterate is `e.newtonStep xPrev`.
The division throws if the derivative is zero; the `toNumber` calls in the
termination test throw if either compared iterate reaches `2 ^ 53` in
magnitude; otherwise the loop breaks when the new iterate equals the
previous one, and the final iterate is returned when fuel runs out. -/
def Equation.solveLoop (e : Equation) : Nat → Int → SolveResult
  | 0, x => .ok x
  | fuel + 1, xPrev =>
    if e.computeDerivValue xPrev = 0 then .divByZero
    else if BN_TONUMBER_BOUND ≤ (e.newtonStep xPrev).natAbs ∨
        BN_TONUMBER_BOUND ≤ xPrev.natAbs then .overflow
    else if e.newtonStep xPrev = xPrev then .ok (e.newtonStep xPrev)
    else e.solveLoop fuel (e.newtonStep xPrev)

/-- `Equation.solve`: Newton's method from `x₀ = 0`, at most 32 iterations. -/
def Equation.solve (e : Equation) : SolveResult :=
  e.solveLoop MAX_ITERATIONS 0

/-- The pure sequence of Newton iterates from `x₀ = 0`. -/
def Equation.newtonIter (e : Equation) : Nat → Int
  | 0 => 0
  | n + 1 => e.newtonStep (e.newtonIter n)

/-- Modelled from the spec: the termination rule of section 4.2 compares the
full-precision integer iterates directly ("stop as soon as the newly computed
value equals the previous iterate (bit-exact integer equality)"), instead of
the `toNumber`-narrowed comparison of the code.  Identical to
`Equation.solveLoop` except that the termination equality never overflows. -/
def Equation.solveFullPrecLoop (e : Equation) : Nat → Int → SolveResult
  | 0, x => .ok x
  | fuel + 1, xPrev =>
    if e.computeDerivValue xPrev = 0 then .divByZero
    else if e.newtonStep xPrev = xPrev then .ok (e.newtonStep xPrev)
    else e.solveFullPrecLoop fuel (e.newtonStep xPrev)

/-- Modelled from the spec: `Equation.solve` with the full-precision
termination comparison of `solveFullPrecLoop`. -/
def Equation.solveFullPrec (e : Equation) : SolveResult :=
  e.solveFullPrecLoop MAX_ITERATIONS 0

/-- `DECIMAL_FRACTIONAL = 10^18`, the precision scalar of the simulator. -/
def DECIMAL_FRACTIONAL : Int := 1000000000000000000

/-- The arithmetic of `computeXykSwapOutput` (all divisions are `BN.div`,
truncating): constant-product output after the 0.3% commission. -/
def xykSwapOutputVal (offerAmount offerDepth askDepth : Int) : Int :=
  let cp := offerDepth * askDepth
  let offerDepthAfter := offerDepth + offerAmount
  let askDepthAfter := (cp * DECIMAL_FRACTIONAL).tdiv offerDepthAfter
  let returnAmount := (askDepth * DECIMAL_FRACTIONAL - askDepthAfter).tdiv DECIMAL_FRACTIONAL
  let commission := (returnAmount * 30).tdiv 10000
  returnAmount - commission

/-- `computeXykSwapOutput`: the swap simulator.  The only operation in the
body that can throw is the `BN.div` by `offerDepth + offerAmount`, hence the
`none` case; every other input produces `xykSwapOutputVal`. -/
def computeXykSwapOutput (offerAmount offerDepth askDepth : Int) : Option Int :=
  if offerDepth + offerAmount = 0 then none
  else some (xykSwapOutputVal offerAmount offerDepth askDepth)

/-! ## Helper lemmas -/

/-- The three coefficient fields of `Equation.build`, unfolded. -/
theorem Equation.build_def (offer_user offer_pool ask_user ask_pool : Int) :
    Equation.build offer_user offer_pool ask_user ask_pool =
      ⟨ask_pool + ask_user,
       offer_pool * (ask_pool + ask_user) * 2 -
         (ask_pool * (offer_pool + offer_user) * 30).tdiv 10000,
       offer_pool * (offer_pool * ask_user - offer_user * ask_pool)⟩ := rfl

/-- Truncating division is monotone in a nonnegative dividend. -/
theorem tdiv_le_tdiv_of_le {m n d : Int} (hm : 0 ≤ m) (hmn : m ≤ n) (hd : 0 < d) :
    m.tdiv d ≤ n.tdiv d := by
  rw [Int.tdiv_eq_ediv hm hd.le, Int.tdiv_eq_ediv (hm.trans hmn) hd.le]
  exact Int.ediv_le_ediv hd hmn

/-- Truncating division of a nonnegative dividend is antitone in the divisor. -/
theorem tdiv_le_tdiv_of_divisor_le {n d₁ d₂ : Int} (hn : 0 ≤ n) (h₁ : 0 < d₁)
    (h₁₂ : d₁ ≤ d₂) : n.tdiv d₂ ≤ n.tdiv d₁ := by
  have h₂ : 0 < d₂ := h₁.trans_le h₁₂
  rw [Int.tdiv_eq_ediv hn h₁.le, Int.tdiv_eq_ediv hn h₂.le,
    Int.le_ediv_iff_mul_le h₁]
  calc n / d₂ * d₁ ≤ n / d₂ * d₂ :=
        mul_le_mul_of_nonneg_left h₁₂ (Int.ediv_nonneg hn h₂.le)
    _ ≤ n := Int.ediv_mul_le n h₂.ne'

/-- Deducting the 30/10000 commission keeps the output monotone. -/
theorem sub_commission_mono {r₁ r₂ : Int} (h0 : 0 ≤ r₁) (h₁₂ : r₁ ≤ r₂) :
    r₁ - (r₁ * 30).tdiv 10000 ≤ r₂ - (r₂ * 30).tdiv 10000 := by
  have h02 : 0 ≤ r₂ := h0.trans h₁₂
  rw [Int.tdiv_eq_ediv (by nlinarith) (by norm_num),
    Int.tdiv_eq_ediv (by nlinarith) (by norm_num)]
  have hstep : r₂ * 30 ≤ r₁ * 30 + (r₂ - r₁) * 10000 := by nlinarith
  have key : r₂ * 30 / 10000 ≤ r₁ * 30 / 10000 + (r₂ - r₁) := by
    calc r₂ * 30 / 10000 ≤ (r₁ * 30 + (r₂ - r₁) * 10000) / 10000 :=
          Int.ediv_le_ediv (by norm_num) hstep
      _ = r₁ * 30 / 10000 + (r₂ - r₁) := Int.add_mul_ediv_right _ _ (by norm_num)
  linarith

/-- If a single loop iteration leaves the iterate fixed and no exception
fires, the loop returns that iterate at once. -/
theorem Equation.solveLoop_fix (e : Equation) (fuel : Nat) (x : Int)
    (hd : e.computeDerivValue x ≠ 0) (hstep : e.newtonStep x = x)
    (hx : x.natAbs < BN_TONUMBER_BOUND) :
    e.solveLoop (fuel + 1) x = .ok x := by
  simp only [Equation.solveLoop]
  rw [if_neg hd, hstep, if_neg (by omega), if_pos rfl]

/-! ## C1 — coefficients constructed by the Equation model -/

/-- C1: for all non-negative inputs, the constructed coefficients are
`a = askPool + askUser`,
`b = 2·offerPool·a − (askPool·(offerPool+offerUser)·30) div 10000` and
`c = offerPool·(offerPool·askUser − offerUser·askPool)`, in exact integer
arithmetic with truncating division. -/
theorem build_coefficients (offer_user offer_pool ask_user ask_pool : Int)
    (h₁ : 0 ≤ offer_user) (h₂ : 0 ≤ offer_pool) (h₃ : 0 ≤ ask_user)
    (h₄ : 0 ≤ ask_pool) :
    (Equation.build offer_user offer_pool ask_user ask_pool).a =
      ask_pool + ask_user ∧
    (Equation.build offer_user offer_pool ask_user ask_pool).b =
      2 * offer_pool * (ask_pool + ask_user) -
        (ask_pool * (offer_pool + offer_user) * 30).tdiv 10000 ∧
    (Equation.build offer_user offer_pool ask_user ask_pool).c =
      offer_pool * (offer_pool * ask_user - offer_user * ask_pool) := by
  refine ⟨rfl, ?_, rfl⟩
  rw [Equation.build_def]
  ring_nf

/-- Witness for C1 at the concrete input (3, 5, 7, 11). -/
theorem build_coefficients_witness :
    ((0:Int) ≤ 3 ∧ (0:Int) ≤ 5 ∧ (0:Int) ≤ 7 ∧ (0:Int) ≤ 11) ∧
    ((Equation.build 3 5 7 11).a = 11 + 7 ∧
     (Equation.build 3 5 7 11).b =
       2 * 5 * (11 + 7) - ((11:Int) * (5 + 3) * 30).tdiv 10000 ∧
     (Equation.build 3 5 7 11).c = 5 * (5 * 7 - 3 * 11)) :=
  ⟨by decide, build_coefficients 3 5 7 11 (by decide) (by decide) (by decide)
    (by decide)⟩

/-! ## C4 — swap simulator formula -/

/-- C4: for non-negative offer amount and positive reserves, the simulator
returns `returnAmount − commission` with
`askDepthAfter = (offerDepth·askDepth·10^18) div (offerDepth+offerAmount)`,
`returnAmount = (askDepth·10^18 − askDepthAfter) div 10^18` and
`commission = (returnAmount·30) div 10000`, all divisions truncating. -/
theorem computeXykSwapOutput_formula (offerAmount offerDepth askDepth : Int)
    (h₁ : 0 ≤ offerAmount) (h₂ : 0 < offerDepth) (h₃ : 0 < askDepth) :
    computeXykSwapOutput offerAmount offerDepth askDepth =
      some ((askDepth * 10 ^ 18 -
          (offerDepth * askDepth * 10 ^ 18).tdiv (offerDepth + offerAmount)).tdiv
            (10 ^ 18) -
        ((askDepth * 10 ^ 18 -
          (offerDepth * askDepth * 10 ^ 18).tdiv (offerDepth + offerAmount)).tdiv
            (10 ^ 18) * 30).tdiv 10000) := by
  unfold computeXykSwapOutput xykSwapOutputVal DECIMAL_FRACTIONAL
  rw [if_neg (by omega)]
  norm_num

/-- Witness for C4 at the concrete input (7, 3, 5). -/
theorem computeXykSwapOutput_formula_witness :
    ((0:Int) ≤ 7 ∧ (0:Int) < 3 ∧ (0:Int) < 5) ∧
    computeXykSwapOutput 7 3 5 =
      some (((5:Int) * 10 ^ 18 - ((3:Int) * 5 * 10 ^ 18).tdiv (3 + 7)).tdiv (10 ^ 18) -
        (((5:Int) * 10 ^ 18 - ((3:Int) * 5 * 10 ^ 18).tdiv (3 + 7)).tdiv (10 ^ 18) * 30).tdiv
          10000) :=
  ⟨by decide, computeXykSwapOutput_formula 7 3 5 (by decide) (by decide) (by decide)⟩

/-! ## C5 — zero reserves do not raise an error -/

/-- C5 counterexample: with a zero pool reserve neither component raises any
error — the constructor computes the coefficient triple `(2, 0, 0)` and the
simulator computes the output `7`, so no InvalidReserve check precedes the
arithmetic. -/
theorem zero_reserve_no_error_cex :
    Equation.build 1 0 1 1 = ⟨2, 0, 0⟩ ∧
    computeXykSwapOutput 5 0 7 = some 7 := by
  decide

/-- C5 amended: with a zero reserve both components proceed to compute.
With `offerPool = 0` the constructor returns
`(askPool+askUser, −(askPool·offerUser·30) div 10000, 0)`; the simulator with
`offerDepth = 0` and a positive offer returns the whole ask reserve minus
commission, and with `askDepth = 0` it returns `0`. -/
theorem zero_reserves_proceed (offer_user ask_user ask_pool
    offerAmount offerDepth askDepth : Int)
    (h₁ : 0 ≤ offer_user) (h₂ : 0 ≤ ask_user) (h₃ : 0 ≤ ask_pool)
    (h₄ : 0 < offerAmount) (h₅ : 0 < offerDepth) (h₆ : 0 ≤ askDepth) :
    Equation.build offer_user 0 ask_user ask_pool =
      ⟨ask_pool + ask_user, -((ask_pool * offer_user * 30).tdiv 10000), 0⟩ ∧
    computeXykSwapOutput offerAmount 0 askDepth =
      some (askDepth - (askDepth * 30).tdiv 10000) ∧
    computeXykSwapOutput offerAmount offerDepth 0 = some 0 := by
  have hS : (DECIMAL_FRACTIONAL : Int) ≠ 0 := by norm_num [DECIMAL_FRACTIONAL]
  refine ⟨?_, ?_, ?_⟩
  · rw [Equation.build_def]
    norm_num
  · unfold computeXykSwapOutput xykSwapOutputVal
    rw [if_neg (by omega)]
    simp only [zero_mul, Int.zero_tdiv, sub_zero]
    rw [Int.mul_tdiv_cancel askDepth hS]
  · unfold computeXykSwapOutput xykSwapOutputVal
    rw [if_neg (by omega)]
    norm_num [Int.zero_tdiv]

/-- Witness for the amended C5 at the concrete input (1, 1, 1, 5, 1, 7). -/
theorem zero_reserves_proceed_witness :
    ((0:Int) ≤ 1 ∧ (0:Int) ≤ 1 ∧ (0:Int) ≤ 1 ∧ (0:Int) < 5 ∧ (0:Int) < 1 ∧
      (0:Int) ≤ 7) ∧
    (Equation.build 1 0 1 1 = ⟨1 + 1, -(((1:Int) * 1 * 30).tdiv 10000), 0⟩ ∧
     computeXykSwapOutput 5 0 7 = some (7 - ((7:Int) * 30).tdiv 10000) ∧
     computeXykSwapOutput 5 1 0 = some 0) :=
  ⟨by decide, zero_reserves_proceed 1 1 1 5 1 7 (by decide) (by decide) (by decide)
    (by decide) (by decide) (by decide)⟩

/-! ## C7 — zero deposits give root zero -/

/-- C7: for positive reserves and a zero deposit on both sides, the solver
returns the root `0`. -/
theorem solve_zero_deposit (offer_pool ask_pool : Int)
    (h₁ : 0 < offer_pool) (h₂ : 0 < ask_pool) :
    (Equation.build 0 offer_pool 0 ask_pool).solve = SolveResult.ok 0 := by
  set e := Equation.build 0 offer_pool 0 ask_pool with he
  have hpos : 0 < offer_pool * ask_pool := mul_pos h₁ h₂
  have hfee : (ask_pool * (offer_pool + 0) * 30).tdiv 10000 ≤ offer_pool * ask_pool := by
    have h30 : ask_pool * (offer_pool + 0) * 30 ≤ offer_pool * ask_pool * 10000 := by
      nlinarith
    calc (ask_pool * (offer_pool + 0) * 30).tdiv 10000
        ≤ (offer_pool * ask_pool * 10000).tdiv 10000 :=
          tdiv_le_tdiv_of_le (by nlinarith) h30 (by norm_num)
      _ = offer_pool * ask_pool := Int.mul_tdiv_cancel _ (by norm_num)
  have hb : 0 < e.b := by
    rw [he, Equation.build_def]
    simp only
    nlinarith
  have hc : e.computeValue 0 = 0 := by
    rw [he, Equation.build_def]
    simp [Equation.computeValue]
  have hd : e.computeDerivValue 0 ≠ 0 := by
    have : e.computeDerivValue 0 = e.b := by
      simp [Equation.computeDerivValue]
    omega
  have hstep : e.newtonStep 0 = 0 := by
    rw [Equation.newtonStep, hc, Int.zero_tdiv, sub_zero]
  show e.solveLoop 32 0 = SolveResult.ok 0
  have h32 : (32 : Nat) = 31 + 1 := rfl
  rw [h32, e.solveLoop_fix 31 0 hd hstep (by decide)]

/-- Witness for C7 at the concrete reserves (4, 9). -/
theorem solve_zero_deposit_witness :
    ((0:Int) < 4 ∧ (0:Int) < 9) ∧
    (Equation.build 0 4 0 9).solve = SolveResult.ok 0 :=
  ⟨by decide, solve_zero_deposit 4 9 (by decide) (by decide)⟩

/-! ## C2 — the solver performs truncated Newton iteration from 0 -/

/-- A successful run of the solve loop starting at the `n`-th Newton iterate
returns some later iterate reached within the remaining fuel, with a nonzero
derivative at every step taken. -/
theorem Equation.solveLoop_ok_newton (e : Equation) :
    ∀ (fuel n : Nat) (r : Int),
      e.solveLoop fuel (e.newtonIter n) = SolveResult.ok r →
      ∃ m, n ≤ m ∧ m ≤ n + fuel ∧ r = e.newtonIter m ∧
        ∀ k, n ≤ k → k < m → e.computeDerivValue (e.newtonIter k) ≠ 0 := by
  intro fuel
  induction fuel with
  | zero =>
    intro n r h
    simp only [Equation.solveLoop, SolveResult.ok.injEq] at h
    exact ⟨n, le_refl n, by omega, h.symm, fun k hk₁ hk₂ => absurd hk₂ (by omega)⟩
  | succ fuel ih =>
    intro n r h
    simp only [Equation.solveLoop] at h
    by_cases hd : e.computeDerivValue (e.newtonIter n) = 0
    · rw [if_pos hd] at h
      exact absurd h (by simp)
    · rw [if_neg hd] at h
      have hstep : e.newtonStep (e.newtonIter n) = e.newtonIter (n + 1) := rfl
      rw [hstep] at h
      by_cases hov : BN_TONUMBER_BOUND ≤ (e.newtonIter (n + 1)).natAbs ∨
          BN_TONUMBER_BOUND ≤ (e.newtonIter n).natAbs
      · rw [if_pos hov] at h
        exact absurd h (by simp)
      · rw [if_neg hov] at h
        by_cases heq : e.newtonIter (n + 1) = e.newtonIter n
        · rw [if_pos heq] at h
          simp only [SolveResult.ok.injEq] at h
          refine ⟨n + 1, by omega, by omega, h.symm, fun k hk₁ hk₂ => ?_⟩
          have : k = n := by omega
          rw [this]
          exact hd
        · rw [if_neg heq] at h
          obtain ⟨m, hm₁, hm₂, hm₃, hm₄⟩ := ih (n + 1) r h
          refine ⟨m, by omega, by omega, hm₃, fun k hk₁ hk₂ => ?_⟩
          rcases Nat.eq_or_lt_of_le hk₁ with hk | hk
          · rw [← hk]
            exact hd
          · exact hm₄ k (by omega) hk₂

/-- C2: any integer returned by `solve` is produced by Newton–Raphson
iteration `xₙ₊₁ = xₙ − (f(xₙ) tdiv f´(xₙ))` with `f(x) = a·x² + b·x + c` and
`f´(x) = 2·a·x + b`, starting at `x₀ = 0`, within the fixed bound of 32
iterations, every step dividing by a nonzero derivative with truncating
division. -/
theorem solve_newton_spec (e : Equation) (r : Int)
    (h : e.solve = SolveResult.ok r) :
    MAX_ITERATIONS = 32 ∧
    e.newtonIter 0 = 0 ∧
    (∀ x : Int, e.computeValue x = e.a * x ^ 2 + e.b * x + e.c) ∧
    (∀ x : Int, e.computeDerivValue x = 2 * e.a * x + e.b) ∧
    (∀ n : Nat, e.newtonIter (n + 1) =
      e.newtonIter n -
        (e.computeValue (e.newtonIter n)).tdiv
          (e.computeDerivValue (e.newtonIter n))) ∧
    ∃ m, m ≤ MAX_ITERATIONS ∧ r = e.newtonIter m ∧
      ∀ k, k < m → e.computeDerivValue (e.newtonIter k) ≠ 0 := by
  refine ⟨rfl, rfl, fun x => by rw [Equation.computeValue]; ring, fun x => rfl,
    fun n => rfl, ?_⟩
  have h0 : e.solveLoop MAX_ITERATIONS (e.newtonIter 0) = SolveResult.ok r := h
  obtain ⟨m, _, hm₂, hm₃, hm₄⟩ :=
    e.solveLoop_ok_newton MAX_ITERATIONS 0 r h0
  exact ⟨m, by omega, hm₃, fun k hk => hm₄ k (by omega) hk⟩

/-- Witness for C2 on the equation (0, 1, −7), solved as 7. -/
theorem solve_newton_spec_witness :
    (Equation.mk 0 1 (-7)).solve = SolveResult.ok 7 ∧
    (∃ m, m ≤ MAX_ITERATIONS ∧ (7:Int) = (Equation.mk 0 1 (-7)).newtonIter m ∧
      ∀ k, k < m →
        (Equation.mk 0 1 (-7)).computeDerivValue
          ((Equation.mk 0 1 (-7)).newtonIter k) ≠ 0) :=
  ⟨by decide, (solve_newton_spec (Equation.mk 0 1 (-7)) 7 (by decide)).2.2.2.2.2⟩

/-! ## C3 — the termination test narrows the iterates -/

/-- C3 counterexample: on the equation `x² + x − 2^120 = 0` the solver
aborts with the `toNumber` overflow instead of stopping by iterate equality
or after 32 iterations, while the solver that compares the full-precision
iterates directly returns an integer; so the code's termination test is a
narrowed comparison, not a full-precision one. -/
theorem solve_narrowed_termination_cex :
    (Equation.mk 1 1 (-(2 ^ 120))).solve = SolveResult.overflow ∧
    (Equation.mk 1 1 (-(2 ^ 120))).solveFullPrec =
      SolveResult.ok 618970019642690138165389995 := by
  constructor
  · decide
  · decide

/-- Matching loop states: while every Newton iterate stays below `2 ^ 53` in
magnitude, the narrowed and the full-precision loops agree. -/
theorem Equation.solveLoop_eq_fullPrecLoop (e : Equation)
    (hsmall : ∀ m, m ≤ MAX_ITERATIONS →
      (e.newtonIter m).natAbs < BN_TONUMBER_BOUND) :
    ∀ (fuel n : Nat), fuel + n = MAX_ITERATIONS →
      e.solveLoop fuel (e.newtonIter n) =
        e.solveFullPrecLoop fuel (e.newtonIter n) := by
  intro fuel
  induction fuel with
  | zero => intro n _; rfl
  | succ fuel ih =>
    intro n hn
    simp only [Equation.solveLoop, Equation.solveFullPrecLoop]
    by_cases hd : e.computeDerivValue (e.newtonIter n) = 0
    · rw [if_pos hd, if_pos hd]
    · rw [if_neg hd, if_neg hd]
      have hstep : e.newtonStep (e.newtonIter n) = e.newtonIter (n + 1) := rfl
      rw [hstep]
      have hov : ¬(BN_TONUMBER_BOUND ≤ (e.newtonIter (n + 1)).natAbs ∨
          BN_TONUMBER_BOUND ≤ (e.newtonIter n).natAbs) := by
        have h₁ := hsmall (n + 1) (by omega)
        have h₂ := hsmall n (by omega)
        omega
      rw [if_neg hov]
      by_cases heq : e.newtonIter (n + 1) = e.newtonIter n
      · rw [if_pos heq, if_pos heq]
      · rw [if_neg heq, if_neg heq]
        exact ih (n + 1) (by omega)

/-- C3 amended: the termination test compares the iterates after narrowing
them with `toNumber`; the comparison is exact — and the solver stops exactly
as the full-precision rule prescribes — only as long as every iterate stays
below `2 ^ 53` in magnitude, and the run aborts with an overflow exception
otherwise. -/
theorem solve_eq_fullPrec_of_bounded_iterates (e : Equation)
    (hsmall : ∀ m, m ≤ MAX_ITERATIONS →
      (e.newtonIter m).natAbs < BN_TONUMBER_BOUND) :
    e.solve = e.solveFullPrec := by
  have h0 : e.newtonIter 0 = 0 := rfl
  have := e.solveLoop_eq_fullPrecLoop hsmall MAX_ITERATIONS 0 rfl
  rw [h0] at this
  exact this

/-- Witness for the amended C3 on the equation built from (10, 100, 0, 100). -/
theorem solve_eq_fullPrec_of_bounded_iterates_witness :
    (∀ m, m ≤ MAX_ITERATIONS →
      ((Equation.build 10 100 0 100).newtonIter m).natAbs < BN_TONUMBER_BOUND) ∧
    (Equation.build 10 100 0 100).solve =
      (Equation.build 10 100 0 100).solveFullPrec :=
  ⟨by decide,
   solve_eq_fullPrec_of_bounded_iterates (Equation.build 10 100 0 100) (by decide)⟩

/-! ## C9 — the return value does not report convergence -/

/-- C9 counterexample: the equation `x² + x − 5 = 0` stabilizes (its fourth
Newton iterate repeats the third), while `−x² + 5x − 7 = 0` oscillates
between 2 and 3 and never stabilizes within the 32-iteration bound; yet both
runs return exactly `ok 2`, so the solver's output does not distinguish a
converged result from an iteration-exhausted one. -/
theorem solve_no_convergence_flag_cex :
    (Equation.mk 1 1 (-5)).solve = SolveResult.ok 2 ∧
    (∃ n, n < MAX_ITERATIONS ∧
      (Equation.mk 1 1 (-5)).newtonIter (n + 1) =
        (Equation.mk 1 1 (-5)).newtonIter n) ∧
    (Equation.mk (-1) 5 (-7)).solve = SolveResult.ok 2 ∧
    (∀ n, n < MAX_ITERATIONS →
      (Equation.mk (-1) 5 (-7)).newtonIter (n + 1) ≠
        (Equation.mk (-1) 5 (-7)).newtonIter n) := by
  refine ⟨by decide, ⟨3, by decide⟩, by decide, by decide⟩

/-- When a full 32-iteration run never repeats an iterate, never meets a zero
derivative and never overflows, the loop returns the iterate reached after
its whole fuel. -/
theorem Equation.solveLoop_exhausts (e : Equation)
    (h : ∀ n, n < MAX_ITERATIONS →
      e.computeDerivValue (e.newtonIter n) ≠ 0 ∧
      (e.newtonIter (n + 1)).natAbs < BN_TONUMBER_BOUND ∧
      e.newtonIter (n + 1) ≠ e.newtonIter n) :
    ∀ (fuel n : Nat), fuel + n = MAX_ITERATIONS →
      (e.newtonIter n).natAbs < BN_TONUMBER_BOUND →
      e.solveLoop fuel (e.newtonIter n) =
        SolveResult.ok (e.newtonIter MAX_ITERATIONS) := by
  intro fuel
  induction fuel with
  | zero =>
    intro n hn _
    have : n = MAX_ITERATIONS := by omega
    rw [this]
    rfl
  | succ fuel ih =>
    intro n hn hsmall
    obtain ⟨hd, hnext, hne⟩ := h n (by omega)
    simp only [Equation.solveLoop]
    rw [if_neg hd]
    have hstep : e.newtonStep (e.newtonIter n) = e.newtonIter (n + 1) := rfl
    rw [hstep, if_neg (by omega), if_neg hne]
    exact ih (n + 1) (by omega) hnext

/-- C9 amended: the solver's public output is only the final integer: when
all 32 iterations are exhausted without bit-exact stability it still returns
`ok` applied to the 32nd iterate, indistinguishable from a converged return
(the iteration count is only logged to the console, not returned). -/
theorem solve_exhausted_returns_final (e : Equation)
    (h : ∀ n, n < MAX_ITERATIONS →
      e.computeDerivValue (e.newtonIter n) ≠ 0 ∧
      (e.newtonIter (n + 1)).natAbs < BN_TONUMBER_BOUND ∧
      e.newtonIter (n + 1) ≠ e.newtonIter n) :
    e.solve = SolveResult.ok (e.newtonIter MAX_ITERATIONS) := by
  have h0 : e.newtonIter 0 = 0 := rfl
  have := e.solveLoop_exhausts h MAX_ITERATIONS 0 rfl (by rw [h0]; decide)
  rw [h0] at this
  exact this

/-- Witness for the amended C9 on the oscillating equation `−x² + 5x − 7`. -/
theorem solve_exhausted_returns_final_witness :
    (∀ n, n < MAX_ITERATIONS →
      (Equation.mk (-1) 5 (-7)).computeDerivValue
        ((Equation.mk (-1) 5 (-7)).newtonIter n) ≠ 0 ∧
      ((Equation.mk (-1) 5 (-7)).newtonIter (n + 1)).natAbs < BN_TONUMBER_BOUND ∧
      (Equation.mk (-1) 5 (-7)).newtonIter (n + 1) ≠
        (Equation.mk (-1) 5 (-7)).newtonIter n) ∧
    (Equation.mk (-1) 5 (-7)).solve =
      SolveResult.ok ((Equation.mk (-1) 5 (-7)).newtonIter MAX_ITERATIONS) :=
  ⟨by decide, solve_exhausted_returns_final (Equation.mk (-1) 5 (-7)) (by decide)⟩

/-! ## C10 — overflow abort on large iterates -/

/-- C10: there is a coefficient triple whose derivative is nowhere zero and
whose first Newton iterate already exceeds `2^53 − 1` in magnitude, making
the narrowed termination comparison abort the whole computation with an
exception instead of returning an integer. -/
theorem solve_overflow_on_large_root :
    ∃ e : Equation,
      (∀ x : Int, e.computeDerivValue x ≠ 0) ∧
      2 ^ 53 - 1 < (e.newtonIter 1).natAbs ∧
      e.solve = SolveResult.overflow := by
  refine ⟨Equation.mk 1 1 (-(2 ^ 120)), fun x => ?_, by decide, by decide⟩
  simp only [Equation.computeDerivValue]
  omega

/-! ## C8 — swap output is monotone in the offer amount -/

/-- The simulator's value, with the lets unfolded, whenever the depth after
the swap is nonzero. -/
theorem computeXykSwapOutput_eq (offerAmount offerDepth askDepth : Int)
    (h : offerDepth + offerAmount ≠ 0) :
    computeXykSwapOutput offerAmount offerDepth askDepth =
      some ((askDepth * DECIMAL_FRACTIONAL -
          (offerDepth * askDepth * DECIMAL_FRACTIONAL).tdiv
            (offerDepth + offerAmount)).tdiv DECIMAL_FRACTIONAL -
        ((askDepth * DECIMAL_FRACTIONAL -
          (offerDepth * askDepth * DECIMAL_FRACTIONAL).tdiv
            (offerDepth + offerAmount)).tdiv DECIMAL_FRACTIONAL * 30).tdiv
          10000) := by
  unfold computeXykSwapOutput xykSwapOutputVal
  rw [if_neg h]

/-- C8: for fixed positive reserves, the simulator's returned value is
non-decreasing in the offer amount. -/
theorem computeXykSwapOutput_monotone (offerDepth askDepth oa₁ oa₂ r₁ r₂ : Int)
    (hod : 0 < offerDepth) (had : 0 < askDepth) (h₁ : 0 ≤ oa₁) (h₁₂ : oa₁ ≤ oa₂)
    (hr₁ : computeXykSwapOutput oa₁ offerDepth askDepth = some r₁)
    (hr₂ : computeXykSwapOutput oa₂ offerDepth askDepth = some r₂) :
    r₁ ≤ r₂ := by
  rw [computeXykSwapOutput_eq oa₁ offerDepth askDepth (by omega)] at hr₁
  rw [computeXykSwapOutput_eq oa₂ offerDepth askDepth (by omega)] at hr₂
  injection hr₁ with hr₁
  injection hr₂ with hr₂
  subst hr₁
  subst hr₂
  have hS : (0 : Int) < DECIMAL_FRACTIONAL := by norm_num [DECIMAL_FRACTIONAL]
  have hcp : 0 ≤ offerDepth * askDepth * DECIMAL_FRACTIONAL :=
    mul_nonneg (mul_nonneg hod.le had.le) hS.le
  have hd₁ : 0 < offerDepth + oa₁ := by omega
  have hA21 : (offerDepth * askDepth * DECIMAL_FRACTIONAL).tdiv (offerDepth + oa₂) ≤
      (offerDepth * askDepth * DECIMAL_FRACTIONAL).tdiv (offerDepth + oa₁) :=
    tdiv_le_tdiv_of_divisor_le hcp hd₁ (by omega)
  have hA1le : (offerDepth * askDepth * DECIMAL_FRACTIONAL).tdiv (offerDepth + oa₁) ≤
      askDepth * DECIMAL_FRACTIONAL := by
    have h₁' : (offerDepth * askDepth * DECIMAL_FRACTIONAL).tdiv (offerDepth + oa₁) ≤
        (offerDepth * askDepth * DECIMAL_FRACTIONAL).tdiv offerDepth :=
      tdiv_le_tdiv_of_divisor_le hcp hod (by omega)
    have h₂' : (offerDepth * askDepth * DECIMAL_FRACTIONAL).tdiv offerDepth =
        askDepth * DECIMAL_FRACTIONAL := by
      rw [mul_assoc, Int.mul_tdiv_cancel_left (askDepth * DECIMAL_FRACTIONAL) hod.ne']
    rw [h₂'] at h₁'
    exact h₁'
  have hnum₁ : 0 ≤ askDepth * DECIMAL_FRACTIONAL -
      (offerDepth * askDepth * DECIMAL_FRACTIONAL).tdiv (offerDepth + oa₁) :=
    sub_nonneg.mpr hA1le
  have hR : (askDepth * DECIMAL_FRACTIONAL -
        (offerDepth * askDepth * DECIMAL_FRACTIONAL).tdiv (offerDepth + oa₁)).tdiv
          DECIMAL_FRACTIONAL ≤
      (askDepth * DECIMAL_FRACTIONAL -
        (offerDepth * askDepth * DECIMAL_FRACTIONAL).tdiv (offerDepth + oa₂)).tdiv
          DECIMAL_FRACTIONAL :=
    tdiv_le_tdiv_of_le hnum₁ (by linarith) hS
  have hRnn : 0 ≤ (askDepth * DECIMAL_FRACTIONAL -
      (offerDepth * askDepth * DECIMAL_FRACTIONAL).tdiv (offerDepth + oa₁)).tdiv
        DECIMAL_FRACTIONAL :=
    Int.tdiv_nonneg hnum₁ hS.le
  exact sub_commission_mono hRnn hR

/-- Witness for C8 at reserves (100, 100) and offers 0 ≤ 10. -/
theorem computeXykSwapOutput_monotone_witness :
    ((0:Int) < 100 ∧ (0:Int) < 100 ∧ (0:Int) ≤ 0 ∧ (0:Int) ≤ 10 ∧
      computeXykSwapOutput 0 100 100 = some 0 ∧
      computeXykSwapOutput 10 100 100 = some 9) ∧
    (0 : Int) ≤ 9 :=
  ⟨⟨by decide, by decide, by decide, by decide, by decide, by decide⟩,
   computeXykSwapOutput_monotone 100 100 0 10 0 9 (by decide) (by decide)
     (by decide) (by decide) (by decide) (by decide)⟩

/-! ## C6 — bounds on the solved swap amount for a single-asset deposit -/

/-- Step invariant: for coefficients of the single-asset shape
`a ≥ 0`, `b ≥ offerPool·a > 0`, `c = −(offerPool·offerUser·a)`, a Newton
step from any `x` in `[0, offerUser]` stays in `[0, offerUser]`. -/
theorem Equation.newtonStep_bounds (e : Equation) (op ou x : Int)
    (ha : 0 ≤ e.a) (hb : 0 < e.b) (hba : op * e.a ≤ e.b) (hop : 0 ≤ op)
    (hc : e.c = -(op * ou * e.a)) (hou : 0 ≤ ou)
    (hx0 : 0 ≤ x) (hxu : x ≤ ou) :
    0 ≤ e.newtonStep x ∧ e.newtonStep x ≤ ou := by
  have hd : 0 < e.computeDerivValue x := by
    rw [Equation.computeDerivValue]
    nlinarith [mul_nonneg ha hx0]
  rcases le_or_lt 0 (e.computeValue x) with hv | hv
  · have hvxd : e.computeValue x ≤ x * e.computeDerivValue x := by
      rw [Equation.computeValue, Equation.computeDerivValue, hc]
      nlinarith [mul_nonneg (mul_nonneg hop hou) ha,
        mul_nonneg (mul_nonneg ha hx0) hx0]
    have hq0 : 0 ≤ (e.computeValue x).tdiv (e.computeDerivValue x) :=
      Int.tdiv_nonneg hv hd.le
    have hqx : (e.computeValue x).tdiv (e.computeDerivValue x) ≤ x := by
      have h₁ := tdiv_le_tdiv_of_le hv hvxd hd
      rwa [Int.mul_tdiv_cancel x hd.ne'] at h₁
    rw [Equation.newtonStep]
    constructor <;> linarith
  · have hneg : (e.computeValue x).tdiv (e.computeDerivValue x) =
        -((-(e.computeValue x)).tdiv (e.computeDerivValue x)) := by
      rw [Int.neg_tdiv, neg_neg]
    have hq0 : 0 ≤ (-(e.computeValue x)).tdiv (e.computeDerivValue x) :=
      Int.tdiv_nonneg (by omega) hd.le
    have hG : -(e.computeValue x) ≤ (ou - x) * e.computeDerivValue x := by
      rw [Equation.computeValue, Equation.computeDerivValue, hc]
      nlinarith [mul_nonneg (mul_nonneg ha hx0) (sub_nonneg.mpr hxu),
        mul_nonneg (mul_nonneg ha hx0) hou,
        mul_nonneg hou (sub_nonneg.mpr hba)]
    have hqle : (-(e.computeValue x)).tdiv (e.computeDerivValue x) ≤ ou - x := by
      have h₁ := tdiv_le_tdiv_of_le (by omega : (0:Int) ≤ -(e.computeValue x)) hG hd
      rwa [Int.mul_tdiv_cancel (ou - x) hd.ne'] at h₁
    rw [Equation.newtonStep, hneg]
    constructor <;> linarith

/-- Loop invariant: under the step invariant's coefficient shape, any `ok`
result of the solve loop started inside `[0, offerUser]` lies in
`[0, offerUser]`. -/
theorem Equation.solveLoop_ok_bounds (e : Equation) (op ou : Int)
    (ha : 0 ≤ e.a) (hb : 0 < e.b) (hba : op * e.a ≤ e.b) (hop : 0 ≤ op)
    (hc : e.c = -(op * ou * e.a)) (hou : 0 ≤ ou) :
    ∀ (fuel : Nat) (x r : Int), 0 ≤ x → x ≤ ou →
      e.solveLoop fuel x = SolveResult.ok r → 0 ≤ r ∧ r ≤ ou := by
  intro fuel
  induction fuel with
  | zero =>
    intro x r hx0 hxu h
    simp only [Equation.solveLoop, SolveResult.ok.injEq] at h
    rw [← h]
    exact ⟨hx0, hxu⟩
  | succ fuel ih =>
    intro x r hx0 hxu h
    obtain ⟨hs0, hsu⟩ := e.newtonStep_bounds op ou x ha hb hba hop hc hou hx0 hxu
    simp only [Equation.solveLoop] at h
    have hd : e.computeDerivValue x ≠ 0 := by
      have : 0 < e.computeDerivValue x := by
        rw [Equation.computeDerivValue]
        nlinarith [mul_nonneg ha hx0]
      omega
    rw [if_neg hd] at h
    by_cases hov : BN_TONUMBER_BOUND ≤ (e.newtonStep x).natAbs ∨
        BN_TONUMBER_BOUND ≤ x.natAbs
    · rw [if_pos hov] at h
      exact absurd h (by simp)
    · rw [if_neg hov] at h
      by_cases heq : e.newtonStep x = x
      · rw [if_pos heq] at h
        simp only [SolveResult.ok.injEq] at h
        rw [← h]
        exact ⟨hs0, hsu⟩
      · rw [if_neg heq] at h
        exact ih (e.newtonStep x) r hs0 hsu h

/-- C6 counterexample: for the single-asset deposit
(offerUser, offerPool, askUser, askPool) = (1000000, 1, 0, 10000) the fee
term exceeds `2·offerPool·askPool`, the linear coefficient `b` is negative,
and Newton's method from 0 converges to the negative root: the solver
returns −303, violating `0 ≤ x ≤ offerUser`. -/
theorem solve_single_asset_bounds_cex :
    (Equation.build 1000000 1 0 10000).solve = SolveResult.ok (-303) ∧
    ¬(0 ≤ (-303 : Int) ∧ (-303 : Int) ≤ 1000000) := by
  exact ⟨by decide, by decide⟩

/-- C6 amended: for positive reserves and a single-asset deposit
(`askUser = 0`, `offerUser > 0`), and provided the truncated fee term
`(askPool·(offerPool+offerUser)·30) div 10000` does not exceed
`offerPool·askPool` (which holds whenever the deposit is not huge relative
to the pool; without it the solver can converge to the negative root), any
integer the solver returns satisfies `0 ≤ x ≤ offerUser`. -/
theorem solve_single_asset_bounds (offer_user offer_pool ask_pool r : Int)
    (h₁ : 0 < offer_pool) (h₂ : 0 < ask_pool) (h₃ : 0 < offer_user)
    (hfee : (ask_pool * (offer_pool + offer_user) * 30).tdiv 10000 ≤
      offer_pool * ask_pool)
    (hs : (Equation.build offer_user offer_pool 0 ask_pool).solve =
      SolveResult.ok r) :
    0 ≤ r ∧ r ≤ offer_user := by
  set e := Equation.build offer_user offer_pool 0 ask_pool with he
  have ha' : e.a = ask_pool + 0 := by rw [he, Equation.build_def]
  have hb' : e.b = offer_pool * (ask_pool + 0) * 2 -
      (ask_pool * (offer_pool + offer_user) * 30).tdiv 10000 := by
    rw [he, Equation.build_def]
  have hc' : e.c = offer_pool * (offer_pool * 0 - offer_user * ask_pool) := by
    rw [he, Equation.build_def]
  have ha : 0 ≤ e.a := by rw [ha']; omega
  have hb : 0 < e.b := by
    rw [hb']
    have hpos : 0 < offer_pool * ask_pool := mul_pos h₁ h₂
    linarith [hfee]
  have hba : offer_pool * e.a ≤ e.b := by
    rw [ha', hb']
    linarith [hfee]
  have hcc : e.c = -(offer_pool * offer_user * e.a) := by
    rw [ha', hc']
    ring
  exact e.solveLoop_ok_bounds offer_pool offer_user ha hb hba h₁.le hcc h₃.le
    MAX_ITERATIONS 0 r le_rfl h₃.le hs

/-- Witness for the amended C6 at (10, 100, 100), solved as 5. -/
theorem solve_single_asset_bounds_witness :
    ((0:Int) < 100 ∧ (0:Int) < 100 ∧ (0:Int) < 10 ∧
      ((100:Int) * (100 + 10) * 30).tdiv 10000 ≤ 100 * 100 ∧
      (Equation.build 10 100 0 100).solve = SolveResult.ok 5) ∧
    ((0:Int) ≤ 5 ∧ (5:Int) ≤ 10) :=
  ⟨⟨by decide, by decide, by decide, by decide, by decide⟩,
   solve_single_asset_bounds 10 100 100 5 (by decide) (by decide) (by decide)
     (by decide) (by decide)⟩

end AstroZap
